import Mathlib

/-!
Verification development for the multi-model inference server of
CLOUD-NLP-CLASSIFIER-GCP (src/api/server.py and, for multi-label toxicity
scoring, src/ui/utils/inference_handler.py).

The embedding is shallow: the `ModelManager` class becomes a state record
(`ManagerState`), its mutable Python attributes become record fields
(optional where Python initializes them to `None`), exceptions become
explicit error values, and the filesystem / artifact store becomes an
explicit environment record (`Env`).  Floating point is idealized as an
arbitrary linear ordered field; the transcendental `exp` used by the
baseline probability proxies is passed explicitly so that the numerical
theorems can instantiate it with `Real.exp` while executable witnesses can
instantiate the field with `ℚ`.
-/

/-- One entry of `ModelManager.AVAILABLE_MODELS`. -/
structure ModelConfig where
  type : String
  path : String
  description : String
deriving DecidableEq

/-- `ModelManager.AVAILABLE_MODELS` (class attribute, insertion order of the
Python dict preserved as a list of key/value pairs). -/
def AVAILABLE_MODELS : List (String × ModelConfig) :=
  [("distilbert",
     ⟨"transformer", "models/transformer/distilbert",
      "DistilBERT transformer model (best accuracy)"⟩),
   ("logistic_regression",
     ⟨"baseline", "models/baselines/logistic_regression_tfidf.joblib",
      "Logistic Regression with TF-IDF (fast, interpretable)"⟩),
   ("linear_svm",
     ⟨"baseline", "models/baselines/linear_svm_tfidf.joblib",
      "Linear SVM with TF-IDF (fast, robust)"⟩)]

/-- Contents of a transformer model's `labels.json`: `id2label` is a JSON
dict with integer-coerced keys, `label2id` a dict from label to id, and
`classes` the label list. -/
structure LabelMappings where
  id2label : List (Nat × String)
  label2id : List (String × Nat)
  classes : List String
deriving DecidableEq

/-- A deserialized `DistilBertForSequenceClassification`.  Its observable
behaviour in `_predict_transformer` is the logits row it produces for a
tokenized input text. -/
structure TransformerModel (α : Type) where
  logits : String → List α

/-- A deserialized `DistilBertTokenizer`; only its presence matters. -/
structure TokenizerObj where
  ok : Unit
deriving DecidableEq

/-- A deserialized sklearn `Pipeline` (vectorizer + classifier).  The
classifier's observable behaviour: its (stringified) class list, the
label returned by `pipeline.predict`, and its optional `predict_proba` /
`decision_function` methods (absent method = `none`, mirroring
`hasattr`). -/
structure SklearnPipeline (α : Type) where
  classes_ : List String
  predictOut : String → String
  predict_proba : Option (String → List α)
  decision_function : Option (String → List α)

/-- The artifact directory of a neural model: each stage of
`_load_transformer_model` that can raise is an `Option` (`none` models a
missing `labels.json` or a deserialization failure of tokenizer/model). -/
structure NeuralArtifact (α : Type) where
  labelsJson : Option LabelMappings
  tokenizerLoad : Option TokenizerObj
  modelLoad : Option (TransformerModel α)

/-- The environment seen by the server: which catalog paths exist on disk,
which individual files exist (used only by the spec-side availability
check), whether CUDA is available, and what deserializing each artifact
yields (`none` = the loader raises). -/
structure Env (α : Type) where
  pathExists : String → Bool
  fileExists : String → Bool
  cudaAvailable : Bool
  neural : String → NeuralArtifact α
  baselineLoad : String → Option (SklearnPipeline α)

/-- The mutable attributes of a `ModelManager` instance. -/
structure ManagerState (α : Type) where
  default_model : String
  current_model_name : Option String
  current_model_type : Option String
  model : Option (TransformerModel α)
  tokenizer : Option TokenizerObj
  pipeline : Option (SklearnPipeline α)
  label_mappings : Option LabelMappings
  device : Option String
  id2label : Option (List (Nat × String))
  label2id : Option (List (String × Nat))
  classes : Option (List String)

/-- `ModelManager.__init__(default_model)`: every model attribute starts as
`None`. -/
def initState {α : Type} (default_model : String) : ManagerState α :=
  { default_model := default_model
    current_model_name := none
    current_model_type := none
    model := none
    tokenizer := none
    pipeline := none
    label_mappings := none
    device := none
    id2label := none
    label2id := none
    classes := none }

/-- `ModelManager.get_available_models`: the catalog entries whose `path`
exists on disk, in catalog order.  Only `Path.exists()` is consulted. -/
def get_available_models {α : Type} (env : Env α) : List String :=
  (AVAILABLE_MODELS.filter (fun p => env.pathExists p.2.path)).map (fun p => p.1)

/-- The distinct exceptions that can escape `ModelManager.load_model`:
`ValueError` for an unknown name, `FileNotFoundError` for a missing
artifact path, any exception raised inside a backend-specific loader, and
the (unreachable for the shipped catalog) unknown-type `ValueError`. -/
inductive LoadError where
  | unknownModel
  | fileNotFound
  | loaderFailure
  | unknownType
deriving DecidableEq

/-- `ModelManager._load_transformer_model`, with the mutation order of the
Python method preserved: device, then label mappings (raises if
`labels.json` is missing), then tokenizer, then model.  Returns the state
as mutated so far together with a success flag. -/
def load_transformer_model {α : Type} (env : Env α) (path : String)
    (st : ManagerState α) : ManagerState α × Bool :=
  let st1 := { st with device := some (if env.cudaAvailable then "cuda" else "cpu") }
  match (env.neural path).labelsJson with
  | none => (st1, false)
  | some lm =>
    let st2 := { st1 with
      label_mappings := some lm
      id2label := some lm.id2label
      label2id := some lm.label2id
      classes := some lm.classes }
    match (env.neural path).tokenizerLoad with
    | none => (st2, false)
    | some tok =>
      let st3 := { st2 with tokenizer := some tok }
      match (env.neural path).modelLoad with
      | none => (st3, false)
      | some m => ({ st3 with model := some m }, true)

/-- `ModelManager._load_baseline_model`: deserialize the joblib pipeline and
derive classes and label mappings from the classifier.  Returns the state
as mutated so far together with a success flag. -/
def load_baseline_model {α : Type} (env : Env α) (path : String)
    (st : ManagerState α) : ManagerState α × Bool :=
  match env.baselineLoad path with
  | none => (st, false)
  | some p =>
    ({ st with
        pipeline := some p
        classes := some p.classes_
        id2label := some p.classes_.enum
        label2id := some (p.classes_.enum.map (fun q => (q.2, q.1)))
        device := some "cpu" }, true)

/-- `ModelManager.load_model(model_name)`: validate the name against the
catalog, check the artifact path, clear the previous backends, then run the
backend-specific loader and finally set the current name and type.  The
returned state is the manager as left by the call (Python mutates `self`
even when the loader raises); the second component is the escaping
exception, if any. -/
def load_model {α : Type} (env : Env α) (st : ManagerState α)
    (model_name? : Option String) : ManagerState α × Option LoadError :=
  let model_name := model_name?.getD st.default_model
  match AVAILABLE_MODELS.lookup model_name with
  | none => (st, some LoadError.unknownModel)
  | some cfg =>
    if env.pathExists cfg.path then
      let st1 := { st with model := none, tokenizer := none, pipeline := none }
      if cfg.type = "transformer" then
        let r := load_transformer_model env cfg.path st1
        if r.2 then
          ({ r.1 with current_model_name := some model_name,
                      current_model_type := some cfg.type }, none)
        else (r.1, some LoadError.loaderFailure)
      else if cfg.type = "baseline" then
        let r := load_baseline_model env cfg.path st1
        if r.2 then
          ({ r.1 with current_model_name := some model_name,
                      current_model_type := some cfg.type }, none)
        else (r.1, some LoadError.loaderFailure)
      else (st1, some LoadError.unknownType)
    else (st, some LoadError.fileNotFound)

/-- `ModelManager.is_loaded`. -/
def is_loaded {α : Type} (st : ManagerState α) : Bool :=
  if st.current_model_type = some "transformer" then
    st.model.isSome && st.tokenizer.isSome
  else if st.current_model_type = some "baseline" then
    st.pipeline.isSome
  else false

/-- Structural decidable equality for `Except` results, so that concrete
prediction outcomes can be checked by `decide`. -/
instance {E B : Type} [DecidableEq E] [DecidableEq B] : DecidableEq (Except E B) := fun x y =>
  match x, y with
  | Except.ok a, Except.ok b =>
    if h : a = b then Decidable.isTrue (congrArg Except.ok h)
    else Decidable.isFalse (fun hh => h (Except.ok.inj hh))
  | Except.error a, Except.error b =>
    if h : a = b then Decidable.isTrue (congrArg Except.error h)
    else Decidable.isFalse (fun hh => h (Except.error.inj hh))
  | Except.ok _, Except.error _ => Decidable.isFalse (fun hh => Except.noConfusion hh)
  | Except.error _, Except.ok _ => Decidable.isFalse (fun hh => Except.noConfusion hh)

/-- One element of the `scores` list in a prediction response. -/
structure ClassScore (α : Type) where
  label : String
  score : α
deriving DecidableEq

/-- The parts of a prediction result the claims are about (the wall-clock
`inference_time_ms` field is not modelled). -/
structure PredictResult (α : Type) where
  predicted_label : String
  confidence : α
  scores : List (ClassScore α)
  model : Option String
deriving DecidableEq

/-- Exceptions escaping `ModelManager.predict`: the explicit not-loaded
`RuntimeError`, the unknown-type `RuntimeError`, and any error raised while
computing (missing dict keys, index errors, `np.max` of an empty array). -/
inductive PredictError where
  | notLoaded
  | unknownModelType
  | internalError
deriving DecidableEq

/-- `torch.softmax` over a logits row: elementwise `exp x / sum (exp xs)`. -/
def torch_softmax {α : Type} [LinearOrderedField α] (e : α → α) (l : List α) : List α :=
  l.map (fun x => e x / (l.map e).sum)

/-- The binary branch of the decision-function proxy in
`_predict_baseline`: squash the margin through the logistic function and
return the complementary pair. -/
def binary_proxy {α : Type} [LinearOrderedField α] (e : α → α) (d : α) : List α :=
  let s := 1 / (1 + e (-d))
  [1 - s, s]

/-- The multi-class branch of the decision-function proxy in
`_predict_baseline`: a max-shifted softmax over the margins. -/
def softmax_proxy {α : Type} [LinearOrderedField α] (e : α → α) : List α → List α
  | [] => []
  | d :: ds =>
    let m := ds.foldl max d
    let exps := (d :: ds).map (fun x => e (x - m))
    exps.map (fun x => x / exps.sum)

/-- Auxiliary scan for `torch.argmax`: index of the first maximal element. -/
def argmaxAux {α : Type} [LinearOrder α] : List α → Nat → Nat → α → Nat
  | [], _, best, _ => best
  | x :: xs, i, best, bestv =>
    if bestv < x then argmaxAux xs (i + 1) i x else argmaxAux xs (i + 1) best bestv

/-- `torch.argmax` over a row; `none` for an empty row (torch raises). -/
def argmaxIdx {α : Type} [LinearOrder α] : List α → Option Nat
  | [] => none
  | x :: xs => some (argmaxAux xs 1 0 x)

/-- The `scores` list comprehension shared by both predict methods:
`{"label": self.id2label[i], "score": probs_np[i]} for i in range(n)`.
A missing dict key or an out-of-range index (a Python `KeyError` /
`IndexError`) yields `none`. -/
def buildScores {α : Type} (i2l : List (Nat × String)) (probs : List α) :
    List Nat → Option (List (ClassScore α))
  | [] => some []
  | i :: is =>
    match i2l.lookup i, probs[i]?, buildScores i2l probs is with
    | some l, some s, some rest => some (ClassScore.mk l s :: rest)
    | _, _, _ => none

/-- The descending-by-score order used by
`sorted(scores, key=lambda x: x['score'], reverse=True)`. -/
def scoreDesc {α : Type} [LinearOrder α] (a b : ClassScore α) : Prop :=
  b.score ≤ a.score

instance {α : Type} [LinearOrder α] : DecidableRel (scoreDesc (α := α)) :=
  fun a b => inferInstanceAs (Decidable (b.score ≤ a.score))

instance {α : Type} [LinearOrder α] : IsTotal (ClassScore α) scoreDesc :=
  ⟨fun a b => le_total b.score a.score⟩

instance {α : Type} [LinearOrder α] : IsTrans (ClassScore α) scoreDesc :=
  ⟨fun _ _ _ h1 h2 => le_trans h2 h1⟩

/-- `sorted(scores, key=lambda x: x['score'], reverse=True)` as a stable
descending insertion sort. -/
def sortScores {α : Type} [LinearOrder α] (l : List (ClassScore α)) : List (ClassScore α) :=
  l.insertionSort scoreDesc

/-- `ModelManager._predict_transformer` (written `predict_transformer`; Lean
reserves the leading underscore): softmax the logits, take the argmax as the
predicted index, look its label up in `id2label`, and return the per-class
scores sorted descending. -/
def predict_transformer {α : Type} [LinearOrderedField α] (e : α → α)
    (st : ManagerState α) (text : String) : Except PredictError (PredictResult α) :=
  match st.model, st.tokenizer, st.classes, st.id2label with
  | some m, some _, some cs, some i2l =>
    let probs := torch_softmax e (m.logits text)
    match argmaxIdx probs with
    | none => Except.error PredictError.internalError
    | some pidx =>
      match i2l.lookup pidx, probs[pidx]? with
      | some plabel, some conf =>
        match buildScores i2l probs (List.range cs.length) with
        | none => Except.error PredictError.internalError
        | some scores =>
          Except.ok ⟨plabel, conf, sortScores scores, st.current_model_name⟩
      | _, _ => Except.error PredictError.internalError
  | _, _, _, _ => Except.error PredictError.internalError

/-- `ModelManager._predict_baseline` (written `predict_baseline`): take the
pipeline's predicted label; obtain per-class probabilities from
`predict_proba` when present, else from `decision_function` through the
logistic / shifted-softmax proxies, else fall back to the uniform
distribution; then confidence = probability at the predicted label's index
and scores sorted descending. -/
def predict_baseline {α : Type} [LinearOrderedField α] (e : α → α)
    (st : ManagerState α) (text : String) : Except PredictError (PredictResult α) :=
  match st.pipeline, st.classes, st.id2label, st.label2id with
  | some p, some cs, some i2l, some l2i =>
    let predicted_label := p.predictOut text
    let probsE : Except PredictError (List α) :=
      match p.predict_proba with
      | some f => Except.ok (f text)
      | none =>
        match p.decision_function with
        | some f =>
          let decision := f text
          if decision.length = 1 then
            Except.ok (binary_proxy e (decision.headD 0))
          else if decision.length = 0 then
            Except.error PredictError.internalError
          else
            Except.ok (softmax_proxy e decision)
        | none => Except.ok (List.replicate cs.length (1 / (cs.length : α)))
    match probsE with
    | Except.error err => Except.error err
    | Except.ok probs_np =>
      match l2i.lookup predicted_label with
      | none => Except.error PredictError.internalError
      | some pidx =>
        match probs_np[pidx]? with
        | none => Except.error PredictError.internalError
        | some conf =>
          match buildScores i2l probs_np (List.range cs.length) with
          | none => Except.error PredictError.internalError
          | some scores =>
            Except.ok ⟨predicted_label, conf, sortScores scores, st.current_model_name⟩
  | _, _, _, _ => Except.error PredictError.internalError

/-- `ModelManager.predict`: raise if no model is loaded, else route on the
current model type. -/
def predict {α : Type} [LinearOrderedField α] (e : α → α) (st : ManagerState α)
    (text : String) : Except PredictError (PredictResult α) :=
  if is_loaded st then
    if st.current_model_type = some "transformer" then predict_transformer e st text
    else if st.current_model_type = some "baseline" then predict_baseline e st text
    else Except.error PredictError.unknownModelType
  else Except.error PredictError.notLoaded

/-- The toxicity model bundle returned by the UI `ModelManager`'s
`load_toxicity_model`: the fixed category list and the logits row the
model produces for a text. -/
structure ToxicityData (α : Type) where
  labels : List String
  logits : String → List α

/-- One element of `toxicity_scores` in `InferenceHandler.predict_toxicity`. -/
structure ToxScore (α : Type) where
  category : String
  score : α
  flagged : Bool
deriving DecidableEq

/-- The result dict of `InferenceHandler.predict_toxicity`. -/
structure ToxicityResult (α : Type) where
  is_toxic : Bool
  toxicity_scores : List (ToxScore α)
  flagged_categories : List String
deriving DecidableEq

/-- The `for i, label in enumerate(labels)` loop of `predict_toxicity`:
one entry per category, in category order, score read at the running index
(`none` models the `IndexError` swallowed by the handler's `except`). -/
def buildToxScores {α : Type} [LinearOrder α] (threshold : α) (probs : List α) :
    List String → Nat → Option (List (ToxScore α))
  | [], _ => some []
  | l :: ls, i =>
    match probs[i]?, buildToxScores threshold probs ls (i + 1) with
    | some s, some rest => some (ToxScore.mk l s (decide (threshold < s)) :: rest)
    | _, _ => none

/-- `InferenceHandler.predict_toxicity`: sigmoid the logits for multi-label
scoring, then emit one score per category in the fixed label order (no
sorting), flagging categories above the threshold. -/
def predict_toxicity {α : Type} [LinearOrderedField α] (e : α → α)
    (data? : Option (ToxicityData α)) (text : String) (threshold : α) :
    Except String (ToxicityResult α) :=
  match data? with
  | none => Except.error "Toxicity model not loaded"
  | some d =>
    let probs := (d.logits text).map (fun x => 1 / (1 + e (-x)))
    match buildToxScores threshold probs d.labels 0 with
    | none => Except.error "Prediction failed"
    | some ts =>
      let flagged := (ts.filter (fun t => t.flagged)).map (fun t => t.category)
      Except.ok ⟨!flagged.isEmpty, ts, flagged⟩

/-- What the `try` block of the `POST /models/switch` handler produces:
an explicitly raised `HTTPException` (the 400 for an unavailable model), a
normal return (`ok true` = the already-using early return that skips
`load_model`, `ok false` = a completed switch), or an exception escaping
`load_model`. -/
inductive SwitchTryOutcome where
  | httpRaise (code : Nat)
  | ok (alreadyUsing : Bool)
  | loadException (e : LoadError)
deriving DecidableEq

/-- The final HTTP-level outcome of `POST /models/switch`. -/
inductive SwitchOutcome where
  | alreadyUsing (model_name : String)
  | switched (model_name : String)
  | httpError (code : Nat)
deriving DecidableEq

/-- The `try` block of the `switch_model` endpoint, in source order:
availability check (raising a 400 `HTTPException`), the already-using
early return, then `load_model`. -/
def switch_try {α : Type} (env : Env α) (st : ManagerState α)
    (model_name : String) : ManagerState α × SwitchTryOutcome :=
  if model_name ∈ get_available_models env then
    if st.current_model_name = some model_name then
      (st, SwitchTryOutcome.ok true)
    else
      let r := load_model env st (some model_name)
      match r.2 with
      | none => (r.1, SwitchTryOutcome.ok false)
      | some err => (r.1, SwitchTryOutcome.loadException err)
  else (st, SwitchTryOutcome.httpRaise 400)

/-- The `switch_model` endpoint including its `except Exception` clause.
Because `fastapi.HTTPException` is itself a subclass of `Exception`, the
blanket handler catches the endpoint's own 400 raise and re-raises it as a
500, so every failure surfaces as `httpError 500`. -/
def switch_model {α : Type} (env : Env α) (st : ManagerState α)
    (model_name : String) : ManagerState α × SwitchOutcome :=
  let r := switch_try env st model_name
  match r.2 with
  | SwitchTryOutcome.ok true => (r.1, SwitchOutcome.alreadyUsing model_name)
  | SwitchTryOutcome.ok false => (r.1, SwitchOutcome.switched model_name)
  | SwitchTryOutcome.httpRaise _ => (r.1, SwitchOutcome.httpError 500)
  | SwitchTryOutcome.loadException _ => (r.1, SwitchOutcome.httpError 500)

/-- Manager states reachable from a fresh `ModelManager` by any sequence of
`load_model` calls and `POST /models/switch` requests against a fixed
artifact store (`predict` does not mutate the manager). -/
inductive Reachable {α : Type} (env : Env α) : ManagerState α → Prop where
  | init (d : String) : Reachable env (initState d)
  | load {st : ManagerState α} (model_name? : Option String) :
      Reachable env st → Reachable env (load_model env st model_name?).1
  | switch {st : ManagerState α} (model_name : String) :
      Reachable env st → Reachable env (switch_model env st model_name).1

/-- Modelled from the spec (the spec-side half of the availability
refinement claim): an entry passes when its `artifact_path` exists and
"contains the minimum required files for its backend_kind (for NEURAL_*: a
config file + a weights file + a tokenizer config; for LINEAR_PIPELINE: a
single serialized-pipeline file)". -/
def spec_required_files_present {α : Type} (env : Env α) (cfg : ModelConfig) : Bool :=
  if cfg.type = "transformer" then
    env.pathExists cfg.path &&
    env.fileExists (cfg.path ++ "/config.json") &&
    env.fileExists (cfg.path ++ "/model.safetensors") &&
    env.fileExists (cfg.path ++ "/tokenizer_config.json")
  else
    env.pathExists cfg.path

/-- Modelled from the spec: `list_available()` "returns only descriptors
that pass the check" of `spec_required_files_present`. -/
def spec_list_available {α : Type} (env : Env α) : List String :=
  (AVAILABLE_MODELS.filter (fun p => spec_required_files_present env p.2)).map (fun p => p.1)

/-- An artifact store with nothing on disk. -/
def trivialEnvQ : Env ℚ :=
  ⟨fun _ => false, fun _ => false, false, fun _ => ⟨none, none, none⟩, fun _ => none⟩

/-- A healthy logistic-regression pipeline over two string classes. -/
def pipeLR : SklearnPipeline ℚ :=
  ⟨["0", "1"], fun _ => "1", some (fun _ => [0, 1]), none⟩

/-- Both baseline artifacts are on disk, but deserializing the SVM one
raises (a corrupt joblib file). -/
def envC1 : Env ℚ :=
  ⟨fun p => p = "models/baselines/logistic_regression_tfidf.joblib" ||
            p = "models/baselines/linear_svm_tfidf.joblib",
   fun _ => false, false, fun _ => ⟨none, none, none⟩,
   fun p => if p = "models/baselines/logistic_regression_tfidf.joblib"
            then some pipeLR else none⟩

/-- The manager after successfully loading `logistic_regression` in `envC1`. -/
def stLR : ManagerState ℚ :=
  (load_model envC1 (initState "distilbert") (some "logistic_regression")).1

/-- The logistic-regression artifact is still on disk but has become
corrupt: deserializing it now raises. -/
def envBadLR : Env ℚ :=
  ⟨fun p => p = "models/baselines/logistic_regression_tfidf.joblib",
   fun _ => false, false, fun _ => ⟨none, none, none⟩, fun _ => none⟩

/-- The manager after a failed reload of the currently named model: the
backends were cleared before the loader raised. -/
def st9 : ManagerState ℚ :=
  (load_model envBadLR stLR (some "logistic_regression")).1

/-- The distilbert artifact directory exists but is empty: no config file,
no weights, no tokenizer config. -/
def envDirOnly : Env ℚ :=
  ⟨fun p => p = "models/transformer/distilbert", fun _ => false, false,
   fun _ => ⟨none, none, none⟩, fun _ => none⟩

/-- A consistent `labels.json` for a two-class transformer. -/
def lmT : LabelMappings :=
  ⟨[(0, "neg"), (1, "pos")], [("neg", 0), ("pos", 1)], ["neg", "pos"]⟩

/-- A fully healthy transformer artifact on disk. -/
def envT : Env ℚ :=
  ⟨fun p => p = "models/transformer/distilbert", fun _ => false, false,
   fun p => if p = "models/transformer/distilbert"
            then ⟨some lmT, some ⟨()⟩, some ⟨fun _ => [1, 2]⟩⟩
            else ⟨none, none, none⟩,
   fun _ => none⟩

/-- The manager after the startup load of the default model in `envT`. -/
def stT : ManagerState ℚ :=
  (load_model envT (initState "distilbert") none).1

/-- A loaded toxicity bundle with the fixed six-category taxonomy. -/
def toxD : ToxicityData ℚ :=
  ⟨["toxic", "severe_toxic", "obscene", "threat", "insult", "identity_hate"],
   fun _ => [0, 0, 0, 0, 0, 0]⟩

/-- A baseline pipeline whose classifier has neither `predict_proba` nor
`decision_function`; its `predict` answers the second class. -/
def pipeFB : SklearnPipeline ℚ :=
  ⟨["a", "b"], fun _ => "b", none, none⟩

/-- A manager serving `pipeFB` as the active baseline model. -/
def stFB : ManagerState ℚ :=
  { initState "distilbert" with
      current_model_name := some "linear_svm"
      current_model_type := some "baseline"
      pipeline := some pipeFB
      classes := some ["a", "b"]
      id2label := some [(0, "a"), (1, "b")]
      label2id := some [("a", 0), ("b", 1)] }

/-- The concrete prediction result computed for `stLR` on any text. -/
def rLR : PredictResult ℚ :=
  ⟨"1", 1, [⟨"1", 1⟩, ⟨"0", 0⟩], some "logistic_regression"⟩

/-- The concrete prediction result computed for `stFB` on any text. -/
def rFB : PredictResult ℚ :=
  ⟨"b", 1/2, [⟨"a", 1/2⟩, ⟨"b", 1/2⟩], some "linear_svm"⟩

/-- The concrete toxicity result computed for `toxD` at threshold 1/2. -/
def toxRes : ToxicityResult ℚ :=
  ⟨true,
   [⟨"toxic", 1, true⟩, ⟨"severe_toxic", 1, true⟩, ⟨"obscene", 1, true⟩,
    ⟨"threat", 1, true⟩, ⟨"insult", 1, true⟩, ⟨"identity_hate", 1, true⟩],
   ["toxic", "severe_toxic", "obscene", "threat", "insult", "identity_hate"]⟩

theorem load_transformer_model_fields {α : Type} (env : Env α) (path : String)
    (st : ManagerState α) :
    (load_transformer_model env path st).1.pipeline = st.pipeline ∧
    (load_transformer_model env path st).1.current_model_name = st.current_model_name ∧
    (load_transformer_model env path st).1.current_model_type = st.current_model_type ∧
    ((load_transformer_model env path st).2 = false →
      (load_transformer_model env path st).1.model = st.model) := by
  unfold load_transformer_model
  cases (env.neural path).labelsJson with
  | none => exact ⟨rfl, rfl, rfl, fun _ => rfl⟩
  | some lm =>
    cases (env.neural path).tokenizerLoad with
    | none => exact ⟨rfl, rfl, rfl, fun _ => rfl⟩
    | some tok =>
      cases (env.neural path).modelLoad with
      | none => exact ⟨rfl, rfl, rfl, fun _ => rfl⟩
      | some m => exact ⟨rfl, rfl, rfl, fun h => absurd h (by simp)⟩

theorem load_baseline_model_fields {α : Type} (env : Env α) (path : String)
    (st : ManagerState α) :
    (load_baseline_model env path st).1.model = st.model ∧
    (load_baseline_model env path st).1.tokenizer = st.tokenizer ∧
    (load_baseline_model env path st).1.current_model_name = st.current_model_name ∧
    (load_baseline_model env path st).1.current_model_type = st.current_model_type ∧
    ((load_baseline_model env path st).2 = false → (load_baseline_model env path st).1 = st) := by
  unfold load_baseline_model
  cases env.baselineLoad path with
  | none => exact ⟨rfl, rfl, rfl, rfl, fun _ => rfl⟩
  | some p => exact ⟨rfl, rfl, rfl, rfl, fun h => absurd h (by simp)⟩

theorem is_loaded_eq_false {α : Type} (st : ManagerState α)
    (hm : st.model = none) (hp : st.pipeline = none) : is_loaded st = false := by
  unfold is_loaded
  rw [hm, hp]
  split
  · simp
  · split <;> simp

theorem load_model_cases {α : Type} (env : Env α) (st : ManagerState α) (n? : Option String) :
    ((load_model env st n?).2 = some LoadError.unknownModel ∨
       (load_model env st n?).2 = some LoadError.fileNotFound) ∧
      (load_model env st n?).1 = st ∨
    ((load_model env st n?).2 = some LoadError.loaderFailure ∨
       (load_model env st n?).2 = some LoadError.unknownType) ∧
      (load_model env st n?).1.current_model_name = st.current_model_name ∧
      (load_model env st n?).1.current_model_type = st.current_model_type ∧
      (load_model env st n?).1.model = none ∧
      (load_model env st n?).1.pipeline = none ∨
    (load_model env st n?).2 = none ∧
      ∃ cfg, AVAILABLE_MODELS.lookup (n?.getD st.default_model) = some cfg ∧
        env.pathExists cfg.path = true ∧
        (load_model env st n?).1.current_model_name = some (n?.getD st.default_model) ∧
        (load_model env st n?).1.current_model_type = some cfg.type ∧
        ((load_model env st n?).1.pipeline = none ∨
          ((load_model env st n?).1.model = none ∧
           (load_model env st n?).1.tokenizer = none)) := by
  simp only [load_model]
  cases hlk : AVAILABLE_MODELS.lookup (n?.getD st.default_model) with
  | none => exact Or.inl ⟨Or.inl rfl, rfl⟩
  | some cfg =>
    dsimp only
    cases hp : env.pathExists cfg.path with
    | false =>
      rw [if_neg Bool.false_ne_true]
      exact Or.inl ⟨Or.inr rfl, rfl⟩
    | true =>
      rw [if_pos rfl]
      by_cases ht : cfg.type = "transformer"
      · rw [if_pos ht]
        set st1 : ManagerState α :=
          { st with model := none, tokenizer := none, pipeline := none } with hst1
        have hf := load_transformer_model_fields env cfg.path st1
        cases hr : (load_transformer_model env cfg.path st1).2 with
        | false =>
          rw [if_neg Bool.false_ne_true]
          refine Or.inr (Or.inl ⟨Or.inl rfl, ?_, ?_, ?_, ?_⟩)
          · exact hf.2.1
          · exact hf.2.2.1
          · exact (hf.2.2.2 hr).trans rfl
          · exact hf.1.trans rfl
        | true =>
          rw [if_pos rfl]
          exact Or.inr (Or.inr ⟨rfl, cfg, rfl, hp, rfl, rfl, Or.inl (hf.1.trans rfl)⟩)
      · by_cases hb : cfg.type = "baseline"
        · rw [if_neg ht, if_pos hb]
          set st1 : ManagerState α :=
            { st with model := none, tokenizer := none, pipeline := none } with hst1
          have hf := load_baseline_model_fields env cfg.path st1
          cases hr : (load_baseline_model env cfg.path st1).2 with
          | false =>
            rw [if_neg Bool.false_ne_true]
            refine Or.inr (Or.inl ⟨Or.inl rfl, ?_, ?_, ?_, ?_⟩)
            · exact hf.2.2.1
            · exact hf.2.2.2.1
            · exact hf.1.trans rfl
            · rw [hf.2.2.2.2 hr]
          | true =>
            rw [if_pos rfl]
            exact Or.inr (Or.inr ⟨rfl, cfg, rfl, hp, rfl, rfl,
              Or.inr ⟨hf.1.trans rfl, hf.2.1.trans rfl⟩⟩)
        · rw [if_neg ht, if_neg hb]
          exact Or.inr (Or.inl ⟨Or.inr rfl, rfl, rfl, rfl, rfl⟩)

theorem switch_model_state {α : Type} (env : Env α) (st : ManagerState α) (name : String) :
    (switch_model env st name).1 = st ∨
    (switch_model env st name).1 = (load_model env st (some name)).1 := by
  simp only [switch_model, switch_try]
  by_cases hm : name ∈ get_available_models env
  · rw [if_pos hm]
    by_cases hc : st.current_model_name = some name
    · rw [if_pos hc]
      exact Or.inl rfl
    · rw [if_neg hc]
      cases hr : (load_model env st (some name)).2 with
      | none => exact Or.inr rfl
      | some e => exact Or.inr rfl
  · rw [if_neg hm]
    exact Or.inl rfl

theorem lookup_mem {A B : Type} [BEq A] [LawfulBEq A] {l : List (A × B)} {k : A} {v : B}
    (h : l.lookup k = some v) : (k, v) ∈ l := by
  induction l with
  | nil => simp [List.lookup] at h
  | cons x xs ih =>
    obtain ⟨k1, v1⟩ := x
    rw [List.lookup] at h
    cases hbe : k == k1 with
    | true =>
      rw [hbe] at h
      simp only [Option.some.injEq] at h
      subst h
      have : k = k1 := eq_of_beq hbe
      subst this
      exact List.mem_cons_self _ _
    | false =>
      rw [hbe] at h
      exact List.mem_cons_of_mem _ (ih h)

theorem mem_get_available_models {α : Type} (env : Env α) (name : String) (cfg : ModelConfig)
    (hlk : AVAILABLE_MODELS.lookup name = some cfg) (hp : env.pathExists cfg.path = true) :
    name ∈ get_available_models env := by
  unfold get_available_models
  exact List.mem_map.mpr ⟨(name, cfg), List.mem_filter.mpr ⟨lookup_mem hlk, hp⟩, rfl⟩

theorem reachable_backendsExclusive {α : Type} (env : Env α) (st : ManagerState α)
    (h : Reachable env st) :
    st.pipeline = none ∨ (st.model = none ∧ st.tokenizer = none) := by
  induction h with
  | init d => exact Or.inl rfl
  | @load st' n? hprev ih =>
    rcases load_model_cases env st' n? with ⟨_, heq⟩ | ⟨_, _, _, hm, hp⟩ |
      ⟨_, cfg, _, _, _, _, hdisj⟩
    · rw [heq]; exact ih
    · exact Or.inl hp
    · exact hdisj
  | @switch st' name hprev ih =>
    rcases switch_model_state env st' name with heq | heq
    · rw [heq]; exact ih
    · rw [heq]
      rcases load_model_cases env st' (some name) with ⟨_, heq2⟩ | ⟨_, _, _, hm, hp⟩ |
        ⟨_, cfg, _, _, _, _, hdisj⟩
      · rw [heq2]; exact ih
      · exact Or.inl hp
      · exact hdisj

theorem reachable_current_available {α : Type} (env : Env α) (st : ManagerState α)
    (h : Reachable env st) :
    is_loaded st = true → ∀ n, st.current_model_name = some n →
      n ∈ get_available_models env := by
  induction h with
  | init d =>
    intro hl n hc
    simp [is_loaded, initState] at hl
  | @load st' n? hprev ih =>
    rcases load_model_cases env st' n? with ⟨_, heq⟩ | ⟨_, _, _, hm, hp⟩ |
      ⟨_, cfg, hlk, hpath, hname, _, _⟩
    · rw [heq]; exact ih
    · intro hl n hc
      rw [is_loaded_eq_false _ hm hp] at hl
      cases hl
    · intro hl n hc
      rw [hname] at hc
      rw [Option.some.inj hc] at hlk
      exact mem_get_available_models env n cfg hlk hpath
  | @switch st' name hprev ih =>
    rcases switch_model_state env st' name with heq | heq
    · rw [heq]; exact ih
    · rw [heq]
      rcases load_model_cases env st' (some name) with ⟨_, heq2⟩ | ⟨_, _, _, hm, hp⟩ |
        ⟨_, cfg, hlk, hpath, hname, _, _⟩
      · rw [heq2]; exact ih
      · intro hl n hc
        rw [is_loaded_eq_false _ hm hp] at hl
        cases hl
      · intro hl n hc
        rw [hname] at hc
        rw [Option.some.inj hc] at hlk
        exact mem_get_available_models env n cfg hlk hpath

theorem buildScores_labels {α : Type} (i2l : List (Nat × String)) (probs : List α)
    (f : Nat → String) :
    ∀ (idxs : List Nat) (s : List (ClassScore α)),
      (∀ i ∈ idxs, i2l.lookup i = some (f i)) →
      buildScores i2l probs idxs = some s →
      s.map ClassScore.label = idxs.map f := by
  intro idxs
  induction idxs with
  | nil =>
    intro s _ hs
    simp only [buildScores, Option.some.injEq] at hs
    subst hs
    rfl
  | cons i is ih =>
    intro s hf hs
    rw [buildScores] at hs
    rcases h1 : i2l.lookup i with _ | l
    · rw [h1] at hs; cases hs
    · rcases h2 : probs[i]? with _ | v
      · rw [h1, h2] at hs; cases hs
      · rcases h3 : buildScores i2l probs is with _ | rest
        · rw [h1, h2, h3] at hs; cases hs
        · rw [h1, h2, h3] at hs
          simp only [Option.some.injEq] at hs
          subst hs
          have hl : l = f i := by
            have := hf i (List.mem_cons_self _ _)
            rw [h1] at this
            exact Option.some.inj this
          simp only [List.map_cons, hl]
          rw [ih rest (fun j hj => hf j (List.mem_cons_of_mem _ hj)) h3]

theorem buildScores_scores {α : Type} (i2l : List (Nat × String)) (probs : List α) :
    ∀ (idxs : List Nat) (s : List (ClassScore α)),
      buildScores i2l probs idxs = some s →
      ∀ x ∈ s, ∃ i ∈ idxs, probs[i]? = some x.score := by
  intro idxs
  induction idxs with
  | nil =>
    intro s hs x hx
    simp only [buildScores, Option.some.injEq] at hs
    subst hs
    cases hx
  | cons i is ih =>
    intro s hs x hx
    rw [buildScores] at hs
    rcases h1 : i2l.lookup i with _ | l
    · rw [h1] at hs; cases hs
    · rcases h2 : probs[i]? with _ | v
      · rw [h1, h2] at hs; cases hs
      · rcases h3 : buildScores i2l probs is with _ | rest
        · rw [h1, h2, h3] at hs; cases hs
        · rw [h1, h2, h3] at hs
          simp only [Option.some.injEq] at hs
          subst hs
          rcases List.mem_cons.mp hx with rfl | hx2
          · exact ⟨i, List.mem_cons_self _ _, h2⟩
          · obtain ⟨j, hj, hpj⟩ := ih rest h3 x hx2
            exact ⟨j, List.mem_cons_of_mem _ hj, hpj⟩

theorem map_getD_range {β : Type} (l : List β) (d : β) :
    (List.range l.length).map (fun i => l.getD i d) = l := by
  induction l with
  | nil => rfl
  | cons a l ih =>
    rw [List.length_cons, List.range_succ_eq_map, List.map_cons, List.map_map]
    simp only [List.getD_cons_zero, Function.comp_def, List.getD_cons_succ]
    rw [ih]

theorem predict_transformer_ok_shape {α : Type} [LinearOrderedField α] (e : α → α)
    (st : ManagerState α) (text : String) (r : PredictResult α)
    (h : predict_transformer e st text = Except.ok r) :
    ∃ cs i2l probs s, st.classes = some cs ∧ st.id2label = some i2l ∧
      buildScores i2l probs (List.range cs.length) = some s ∧
      r.scores = sortScores s := by
  unfold predict_transformer at h
  split at h
  case _ m tok cs i2l hm htok hcs hi2l =>
    dsimp only at h
    split at h
    · exact Except.noConfusion h
    case _ pidx hargmax =>
      split at h
      case _ plabel conf hlook hget =>
        split at h
        · exact Except.noConfusion h
        case _ scores hbuild =>
          obtain rfl := (Except.ok.inj h).symm
          exact ⟨cs, i2l, _, scores, hcs, hi2l, hbuild, rfl⟩
      all_goals exact Except.noConfusion h
  case _ => exact Except.noConfusion h

theorem predict_baseline_ok_shape {α : Type} [LinearOrderedField α] (e : α → α)
    (st : ManagerState α) (text : String) (r : PredictResult α)
    (h : predict_baseline e st text = Except.ok r) :
    ∃ cs i2l probs s, st.classes = some cs ∧ st.id2label = some i2l ∧
      buildScores i2l probs (List.range cs.length) = some s ∧
      r.scores = sortScores s := by
  unfold predict_baseline at h
  split at h
  case _ p cs i2l l2i hp hcs hi hl =>
    dsimp only at h
    repeat' split at h
    all_goals
      first
        | exact Except.noConfusion h
        | · obtain rfl := (Except.ok.inj h).symm
            exact ⟨cs, i2l, _, _, hcs, hi, by assumption, rfl⟩
  case _ => exact Except.noConfusion h

theorem predict_ok_shape {α : Type} [LinearOrderedField α] (e : α → α)
    (st : ManagerState α) (text : String) (r : PredictResult α)
    (h : predict e st text = Except.ok r) :
    ∃ cs i2l probs s, st.classes = some cs ∧ st.id2label = some i2l ∧
      buildScores i2l probs (List.range cs.length) = some s ∧
      r.scores = sortScores s := by
  unfold predict at h
  split at h
  · split at h
    · exact predict_transformer_ok_shape e st text r h
    · split at h
      · exact predict_baseline_ok_shape e st text r h
      · exact Except.noConfusion h
  · exact Except.noConfusion h

theorem sortScores_sorted {α : Type} [LinearOrder α] (l : List (ClassScore α)) :
    (sortScores l).Sorted scoreDesc :=
  List.sorted_insertionSort scoreDesc l

theorem sortScores_perm {α : Type} [LinearOrder α] (l : List (ClassScore α)) :
    (sortScores l).Perm l :=
  List.perm_insertionSort scoreDesc l

theorem buildToxScores_categories {α : Type} [LinearOrder α] (thr : α) (probs : List α) :
    ∀ (ls : List String) (i : Nat) (ts : List (ToxScore α)),
      buildToxScores thr probs ls i = some ts →
      ts.map ToxScore.category = ls := by
  intro ls
  induction ls with
  | nil =>
    intro i ts h
    simp only [buildToxScores, Option.some.injEq] at h
    subst h
    rfl
  | cons l ls ih =>
    intro i ts h
    rw [buildToxScores] at h
    rcases h1 : probs[i]? with _ | s
    · rw [h1] at h; cases h
    · rcases h2 : buildToxScores thr probs ls (i + 1) with _ | rest
      · rw [h1, h2] at h; cases h
      · rw [h1, h2] at h
        simp only [Option.some.injEq] at h
        subst h
        simp only [List.map_cons]
        rw [ih (i + 1) rest h2]

theorem predict_toxicity_ok_categories {α : Type} [LinearOrderedField α] (e : α → α)
    (d : ToxicityData α) (text : String) (thr : α) (t : ToxicityResult α)
    (h : predict_toxicity e (some d) text thr = Except.ok t) :
    t.toxicity_scores.map ToxScore.category = d.labels := by
  unfold predict_toxicity at h
  dsimp only at h
  split at h
  · exact Except.noConfusion h
  case _ ts hts =>
    obtain rfl := (Except.ok.inj h).symm
    exact buildToxScores_categories _ _ d.labels 0 ts hts

theorem list_sum_map_div (l : List ℝ) (b : ℝ) :
    (l.map (fun x => x / b)).sum = l.sum / b := by
  induction l with
  | nil => simp
  | cons x xs ih => simp [ih, add_div]

theorem binary_proxy_sum (d : ℝ) : (binary_proxy Real.exp d).sum = 1 := by
  simp [binary_proxy]

theorem softmax_proxy_sum (l : List ℝ) (h : l ≠ []) : (softmax_proxy Real.exp l).sum = 1 := by
  cases l with
  | nil => exact absurd rfl h
  | cons d ds =>
    unfold softmax_proxy
    dsimp only
    rw [list_sum_map_div]
    apply div_self
    refine ne_of_gt (List.sum_pos _ ?_ ?_)
    · intro x hx
      obtain ⟨y, hy, rfl⟩ := List.mem_map.mp hx
      exact Real.exp_pos _
    · simp

theorem eq_of_getElem?_replicate {β : Type} {n : Nat} {a x : β} {i : Nat}
    (h : (List.replicate n a)[i]? = some x) : x = a :=
  List.eq_of_mem_replicate (List.getElem?_mem h)

theorem predict_baseline_fallback {α : Type} [LinearOrderedField α] (e : α → α)
    (st : ManagerState α) (text : String) (r : PredictResult α)
    (p : SklearnPipeline α) (cs : List String)
    (hp : st.pipeline = some p) (hcs : st.classes = some cs)
    (hproba : p.predict_proba = none) (hdec : p.decision_function = none)
    (h : predict_baseline e st text = Except.ok r) :
    r.predicted_label = p.predictOut text ∧
    r.confidence = 1 / (cs.length : α) ∧
    ∀ x ∈ r.scores, x.score = 1 / (cs.length : α) := by
  unfold predict_baseline at h
  split at h
  case _ p' cs' i2l l2i hp' hcs' hi' hl' =>
    have hpe : p' = p := Option.some.inj (hp'.symm.trans hp)
    have hcse : cs' = cs := Option.some.inj (hcs'.symm.trans hcs)
    suffices hgoal : r.predicted_label = p'.predictOut text ∧
        r.confidence = 1 / (cs'.length : α) ∧
        ∀ x ∈ r.scores, x.score = 1 / (cs'.length : α) by
      rw [hpe, hcse] at hgoal
      exact hgoal
    rw [hpe, hproba, hdec] at h
    rw [← hpe] at h
    dsimp only at h
    split at h
    · exact Except.noConfusion h
    case _ pidx hlook =>
      split at h
      · exact Except.noConfusion h
      case _ conf hget =>
        split at h
        · exact Except.noConfusion h
        case _ scores hbuild =>
          obtain rfl := (Except.ok.inj h).symm
          refine ⟨rfl, eq_of_getElem?_replicate hget, ?_⟩
          intro x hx
          have hx2 : x ∈ scores := ((sortScores_perm scores).mem_iff).mp hx
          obtain ⟨i, _, hpi⟩ :=
            buildScores_scores _ _ _ scores hbuild x hx2
          exact eq_of_getElem?_replicate hpi
  case _ => exact Except.noConfusion h

/-- C1, counterexample: after successfully loading model A
(`logistic_regression`), a `load_model("linear_svm")` whose artifact exists
but is corrupt raises `loaderFailure` and does NOT leave the manager in its
prior state: the manager that was serving A (predict succeeded) is left
un-loaded, and the next predict fails instead of succeeding against A. -/
theorem claim1_counterexample :
    (load_model envC1 stLR (some "linear_svm")).2 = some LoadError.loaderFailure ∧
    is_loaded stLR = true ∧
    predict (fun x => x) stLR "abc" = Except.ok rLR ∧
    is_loaded (load_model envC1 stLR (some "linear_svm")).1 = false ∧
    predict (fun x => x) (load_model envC1 stLR (some "linear_svm")).1 "abc" =
      Except.error PredictError.notLoaded :=
  ⟨by decide, by decide, by decide, by decide, by decide⟩

/-- C1, amended: a `load_model` failure during validation (unknown name or
missing artifact path) leaves the manager exactly in its prior state, but a
failure inside a backend-specific loader (or the unknown-type branch)
happens after the backends were cleared: the current name and type still
describe the prior model, while `is_loaded` is false, so the next predict
fails as not-loaded rather than serving the prior model. -/
theorem claim1_failed_load {α : Type} (env : Env α) (st : ManagerState α)
    (n? : Option String) (err : LoadError)
    (h : (load_model env st n?).2 = some err) :
    ((err = LoadError.unknownModel ∨ err = LoadError.fileNotFound) →
      (load_model env st n?).1 = st) ∧
    ((err = LoadError.loaderFailure ∨ err = LoadError.unknownType) →
      (load_model env st n?).1.current_model_name = st.current_model_name ∧
      (load_model env st n?).1.current_model_type = st.current_model_type ∧
      is_loaded (load_model env st n?).1 = false) := by
  have herr : ∀ e0, (load_model env st n?).2 = some e0 → err = e0 :=
    fun e0 he => Option.some.inj (h.symm.trans he)
  rcases load_model_cases env st n? with ⟨hcase, heq⟩ | ⟨hcase, hn, htp, hm, hpip⟩ |
    ⟨hnone, _⟩
  · refine ⟨fun _ => heq, fun hbad => ?_⟩
    rcases hcase with hc | hc
    · obtain rfl := herr _ hc
      rcases hbad with h1 | h1 <;> cases h1
    · obtain rfl := herr _ hc
      rcases hbad with h1 | h1 <;> cases h1
  · refine ⟨fun hbad => ?_, fun _ => ⟨hn, htp, is_loaded_eq_false _ hm hpip⟩⟩
    rcases hcase with hc | hc
    · obtain rfl := herr _ hc
      rcases hbad with h1 | h1 <;> cases h1
    · obtain rfl := herr _ hc
      rcases hbad with h1 | h1 <;> cases h1
  · rw [h] at hnone
    cases hnone

/-- C1, witness for the amended theorem: loading an unknown model name on a
fresh manager fails with `unknownModel` and leaves the state unchanged. -/
theorem claim1_witness :
    (load_model trivialEnvQ (initState "distilbert") (some "nope")).2 =
      some LoadError.unknownModel ∧
    ((LoadError.unknownModel = LoadError.unknownModel ∨
        LoadError.unknownModel = LoadError.fileNotFound) →
      (load_model trivialEnvQ (initState "distilbert") (some "nope")).1 =
        initState "distilbert") ∧
    ((LoadError.unknownModel = LoadError.loaderFailure ∨
        LoadError.unknownModel = LoadError.unknownType) →
      (load_model trivialEnvQ (initState "distilbert") (some "nope")).1.current_model_name =
        (initState "distilbert" : ManagerState ℚ).current_model_name ∧
      (load_model trivialEnvQ (initState "distilbert") (some "nope")).1.current_model_type =
        (initState "distilbert" : ManagerState ℚ).current_model_type ∧
      is_loaded (load_model trivialEnvQ (initState "distilbert") (some "nope")).1 = false) :=
  ⟨by decide,
   (claim1_failed_load trivialEnvQ (initState "distilbert") (some "nope")
      LoadError.unknownModel (by decide)).1,
   (claim1_failed_load trivialEnvQ (initState "distilbert") (some "nope")
      LoadError.unknownModel (by decide)).2⟩

/-- C2: after any sequence of `load_model` / `POST models/switch` operations
from a fresh manager, the transformer backend (model and tokenizer) and the
baseline backend (pipeline) are never simultaneously non-null: the manager
holds at most one loaded backend. -/
theorem claim2_single_backend {α : Type} (env : Env α) (st : ManagerState α)
    (h : Reachable env st) :
    ¬ ((st.model.isSome = true ∧ st.tokenizer.isSome = true) ∧
        st.pipeline.isSome = true) := by
  rintro ⟨⟨hm, _⟩, hp⟩
  rcases reachable_backendsExclusive env st h with hpn | ⟨hmn, _⟩
  · rw [hpn] at hp; cases hp
  · rw [hmn] at hm; cases hm

/-- C2, witness: the invariant instantiated at a freshly constructed
manager. -/
theorem claim2_witness :
    Reachable trivialEnvQ (initState "distilbert") ∧
    ¬ (((initState "distilbert" : ManagerState ℚ).model.isSome = true ∧
          (initState "distilbert" : ManagerState ℚ).tokenizer.isSome = true) ∧
        (initState "distilbert" : ManagerState ℚ).pipeline.isSome = true) :=
  ⟨Reachable.init "distilbert",
   claim2_single_backend trivialEnvQ (initState "distilbert") (Reachable.init "distilbert")⟩

/-- C3: in any reachable manager state that is loaded with current model
`name` (artifact store unchanged since the load), a `POST models/switch`
request for that same `name` returns the already-using success response and
leaves the manager state unchanged, without invoking `load_model`. -/
theorem claim3_switch_idempotent {α : Type} (env : Env α) (st : ManagerState α)
    (name : String) (hr : Reachable env st) (hl : is_loaded st = true)
    (hc : st.current_model_name = some name) :
    switch_model env st name = (st, SwitchOutcome.alreadyUsing name) := by
  have hmem : name ∈ get_available_models env :=
    reachable_current_available env st hr hl name hc
  simp only [switch_model, switch_try]
  rw [if_pos hmem, if_pos hc]

/-- C3, witness: switching to `logistic_regression` when it is already the
loaded current model is the no-op success response. -/
theorem claim3_witness :
    Reachable envC1 stLR ∧ is_loaded stLR = true ∧
    stLR.current_model_name = some "logistic_regression" ∧
    switch_model envC1 stLR "logistic_regression" =
      (stLR, SwitchOutcome.alreadyUsing "logistic_regression") :=
  ⟨Reachable.load (some "logistic_regression") (Reachable.init "distilbert"),
   by decide, by decide,
   claim3_switch_idempotent envC1 stLR "logistic_regression"
     (Reachable.load (some "logistic_regression") (Reachable.init "distilbert"))
     (by decide) (by decide)⟩

/-- C4: evaluating the `switch_model` endpoint at its failing inputs.  An
unknown / unavailable model name surfaces as a 500, not the intended 400,
because the endpoint's blanket `except Exception` catches the
`HTTPException(400)` it itself raised; a backend load failure also
surfaces as a 500, so the two failure kinds are indistinguishable. -/
theorem claim4_switch_error_codes :
    (switch_model trivialEnvQ (initState "distilbert") "invalid_model").2 =
      SwitchOutcome.httpError 500 ∧
    (switch_model envC1 stLR "linear_svm").2 = SwitchOutcome.httpError 500 ∧
    SwitchOutcome.httpError 500 ≠ SwitchOutcome.httpError 400 :=
  ⟨by decide, by decide, by decide⟩

/-- C5, counterexample: with the distilbert artifact directory present but
empty (no config file, no weights, no tokenizer config),
`get_available_models` still lists `distilbert`, while the spec-side
required-files check excludes it — the code's listing is NOT the
spec-described listing. -/
theorem claim5_counterexample :
    get_available_models envDirOnly = ["distilbert"] ∧
    spec_list_available envDirOnly = [] ∧
    get_available_models envDirOnly ≠ spec_list_available envDirOnly :=
  ⟨by decide, by decide, by decide⟩

/-- C5, amended: `get_available_models` returns exactly the catalog entries
whose `artifact_path` exists on disk — a bare `Path.exists()` probe with no
per-backend content check. -/
theorem claim5_available_iff_path_exists {α : Type} (env : Env α) (name : String) :
    name ∈ get_available_models env ↔
      ∃ cfg, (name, cfg) ∈ AVAILABLE_MODELS ∧ env.pathExists cfg.path = true := by
  unfold get_available_models
  constructor
  · intro h
    obtain ⟨p, hpf, hpn⟩ := List.mem_map.mp h
    obtain ⟨hmem, hpath⟩ := List.mem_filter.mp hpf
    refine ⟨p.2, ?_, hpath⟩
    rw [← hpn]
    exact hmem
  · rintro ⟨cfg, hmem, hpath⟩
    exact List.mem_map.mpr ⟨(name, cfg), List.mem_filter.mpr ⟨hmem, hpath⟩, rfl⟩

/-- C6: every successful `predict` of the mutually-exclusive server models
returns its scores sorted descending by score, and every successful
`predict_toxicity` of the multi-label UI handler returns its scores in the
fixed category order of the loaded label list, regardless of values. -/
theorem claim6_score_ordering {α : Type} [LinearOrderedField α] :
    (∀ (e : α → α) (st : ManagerState α) (text : String) (r : PredictResult α),
      predict e st text = Except.ok r → r.scores.Sorted scoreDesc) ∧
    (∀ (e : α → α) (d : ToxicityData α) (text : String) (thr : α) (t : ToxicityResult α),
      predict_toxicity e (some d) text thr = Except.ok t →
      t.toxicity_scores.map ToxScore.category = d.labels) := by
  constructor
  · intro e st text r hok
    obtain ⟨cs, i2l, probs, s, _, _, _, hscores⟩ := predict_ok_shape e st text r hok
    rw [hscores]
    exact sortScores_sorted s
  · intro e d text thr t hok
    exact predict_toxicity_ok_categories e d text thr t hok

/-- C6, witness: a concrete baseline prediction comes out sorted descending,
and a concrete toxicity prediction preserves the six-category order. -/
theorem claim6_witness :
    predict (fun x => x) stLR "abc" = Except.ok rLR ∧
    rLR.scores.Sorted scoreDesc ∧
    predict_toxicity (fun x => x) (some toxD) "x" ((1 : ℚ)/2) = Except.ok toxRes ∧
    toxRes.toxicity_scores.map ToxScore.category = toxD.labels := by
  have h1 : predict (fun x => x) stLR "abc" = Except.ok rLR := by decide
  have h2 : predict_toxicity (fun x => x) (some toxD) "x" ((1 : ℚ)/2) =
      Except.ok toxRes := by
    simp [predict_toxicity, toxD, toxRes, buildToxScores, String.reduceEq]
    norm_num
  exact ⟨h1, claim6_score_ordering.1 (fun x => x) stLR "abc" rLR h1,
    h2, claim6_score_ordering.2 (fun x => x) toxD "x" ((1 : ℚ)/2) toxRes h2⟩

/-- C7: for any successful `predict` whose state carries a duplicate-free
class list and an `id2label` mapping consistent with it (as both loaders
produce from a well-formed artifact), the returned scores carry exactly the
labels of the class list — a permutation of it, with no duplicates. -/
theorem claim7_score_completeness {α : Type} [LinearOrderedField α] (e : α → α)
    (st : ManagerState α) (text : String) (r : PredictResult α)
    (cs : List String) (i2l : List (Nat × String))
    (hok : predict e st text = Except.ok r)
    (hcs : st.classes = some cs) (hi : st.id2label = some i2l)
    (hnd : cs.Nodup)
    (hlk : ∀ i, i < cs.length → i2l.lookup i = some (cs.getD i "")) :
    (r.scores.map ClassScore.label).Perm cs ∧
    (r.scores.map ClassScore.label).Nodup := by
  obtain ⟨cs', i2l', probs, s, hcs', hi', hbuild, hscores⟩ :=
    predict_ok_shape e st text r hok
  have hcse : cs = cs' := Option.some.inj (hcs.symm.trans hcs')
  have hie : i2l = i2l' := Option.some.inj (hi.symm.trans hi')
  subst hcse
  subst hie
  rw [hscores]
  have hlabels : s.map ClassScore.label =
      (List.range cs.length).map (fun i => cs.getD i "") :=
    buildScores_labels i2l probs (fun i => cs.getD i "") (List.range cs.length) s
      (fun i hi2 => hlk i (List.mem_range.mp hi2)) hbuild
  have hperm : ((sortScores s).map ClassScore.label).Perm (s.map ClassScore.label) :=
    (sortScores_perm s).map ClassScore.label
  rw [hlabels, map_getD_range] at hperm
  exact ⟨hperm, hperm.nodup_iff.mpr hnd⟩

/-- C7, witness: a concrete baseline prediction carries exactly the labels
of the loaded class list. -/
theorem claim7_witness :
    predict (fun x => x) stLR "abc" = Except.ok rLR ∧
    stLR.classes = some ["0", "1"] ∧
    stLR.id2label = some [(0, "0"), (1, "1")] ∧
    (["0", "1"] : List String).Nodup ∧
    (∀ i, i < (["0", "1"] : List String).length →
      ([(0, "0"), (1, "1")] : List (Nat × String)).lookup i =
        some ((["0", "1"] : List String).getD i "")) ∧
    (rLR.scores.map ClassScore.label).Perm ["0", "1"] ∧
    (rLR.scores.map ClassScore.label).Nodup := by
  have h1 : predict (fun x => x) stLR "abc" = Except.ok rLR := by decide
  have h2 := claim7_score_completeness (fun x => x) stLR "abc" rLR
    ["0", "1"] [(0, "0"), (1, "1")] h1 (by decide) (by decide) (by decide) (by decide)
  exact ⟨h1, by decide, by decide, by decide, by decide, h2.1, h2.2⟩

/-- C8: the decision-function probability proxies of `_predict_baseline`
sum to one exactly over the reals — the logistic pair for a binary margin,
and the max-shifted softmax for multi-class margins. -/
theorem claim8_proxy_sum_to_one :
    (∀ d : ℝ, (binary_proxy Real.exp d).sum = 1) ∧
    ∀ l : List ℝ, l ≠ [] → (softmax_proxy Real.exp l).sum = 1 :=
  ⟨binary_proxy_sum, softmax_proxy_sum⟩

/-- C8, witness: the proxies evaluated at a zero margin. -/
theorem claim8_witness :
    (binary_proxy Real.exp 0).sum = 1 ∧
    ([0] : List ℝ) ≠ [] ∧
    (softmax_proxy Real.exp [0]).sum = 1 :=
  ⟨claim8_proxy_sum_to_one.1 0, List.cons_ne_nil 0 [],
   claim8_proxy_sum_to_one.2 [0] (List.cons_ne_nil 0 [])⟩

/-- C9: a reachable stale state — after a failed reload of the currently
named model (cleared backends, loader raised), `current_model_name` still
says `logistic_regression` while `is_loaded` is false; from there, a switch
request for that very name answers the already-using success without
invoking `load_model`, yet the next predict still fails as not-loaded. -/
theorem claim9_stale_current_name :
    st9.current_model_name = some "logistic_regression" ∧
    is_loaded st9 = false ∧
    switch_model envBadLR st9 "logistic_regression" =
      (st9, SwitchOutcome.alreadyUsing "logistic_regression") ∧
    predict (fun x => x) st9 "text" = Except.error PredictError.notLoaded :=
  ⟨by decide, by decide, rfl, by decide⟩

/-- C10: when the active baseline pipeline's classifier has neither
`predict_proba` nor `decision_function`, a successful predict returns the
uniform score `1 / num_classes` for every label and that same value as the
confidence, while the predicted label is whatever the pipeline's `predict`
returned — it is not derived from the (all-equal) scores. -/
theorem claim10_uniform_fallback {α : Type} [LinearOrderedField α] (e : α → α)
    (st : ManagerState α) (text : String) (r : PredictResult α)
    (p : SklearnPipeline α) (cs : List String)
    (ht : st.current_model_type = some "baseline")
    (hp : st.pipeline = some p) (hcs : st.classes = some cs)
    (hproba : p.predict_proba = none) (hdec : p.decision_function = none)
    (hok : predict e st text = Except.ok r) :
    r.predicted_label = p.predictOut text ∧
    r.confidence = 1 / (cs.length : α) ∧
    ∀ x ∈ r.scores, x.score = 1 / (cs.length : α) := by
  have hload : is_loaded st = true := by
    unfold is_loaded
    rw [ht]
    rw [if_neg (by decide), if_pos rfl, hp]
    rfl
  have hroute : predict_baseline e st text = Except.ok r := by
    unfold predict at hok
    rw [if_pos hload] at hok
    rw [if_neg (show ¬ st.current_model_type = some "transformer" by
      rw [ht]; decide)] at hok
    rw [if_pos ht] at hok
    exact hok
  exact predict_baseline_fallback e st text r p cs hp hcs hproba hdec hroute

/-- C10, witness: a two-class fallback pipeline yields uniform 1/2 scores
and confidence 1/2, and the predicted label "b" is the pipeline's own
answer — which is not the first entry of the (stably) sorted score list. -/
theorem claim10_witness :
    stFB.current_model_type = some "baseline" ∧
    stFB.pipeline = some pipeFB ∧
    stFB.classes = some ["a", "b"] ∧
    pipeFB.predict_proba = none ∧
    pipeFB.decision_function = none ∧
    predict (fun x => x) stFB "t" = Except.ok rFB ∧
    (rFB.predicted_label = pipeFB.predictOut "t" ∧
      rFB.confidence = 1 / (((["a", "b"] : List String).length : ℚ)) ∧
      ∀ x ∈ rFB.scores, x.score = 1 / (((["a", "b"] : List String).length : ℚ))) := by
  have hok : predict (fun x => x) stFB "t" = Except.ok rFB := by
    simp [predict, is_loaded, stFB, initState, predict_baseline, pipeFB, rFB,
      buildScores, List.lookup, List.replicate, String.reduceEq, String.reduceBEq,
      Nat.reduceBEq, List.range_succ]
    norm_num [sortScores, scoreDesc, List.insertionSort, List.orderedInsert]
  exact ⟨rfl, rfl, rfl, rfl, rfl, hok,
    claim10_uniform_fallback (fun x => x) stFB "t" rFB pipeFB ["a", "b"]
      rfl rfl rfl rfl rfl hok⟩

/-- C5, witness for the amended theorem: `distilbert` is listed exactly
because its catalog path exists in `envDirOnly`. -/
theorem claim5_witness :
    "distilbert" ∈ get_available_models envDirOnly ∧
    ∃ cfg, ("distilbert", cfg) ∈ AVAILABLE_MODELS ∧
      envDirOnly.pathExists cfg.path = true :=
  ⟨by decide,
   (claim5_available_iff_path_exists envDirOnly "distilbert").mp (by decide)⟩
